import Mathlib

set_option maxHeartbeats 1000000

/-! Verification development for the Paint layer-store engine and its history
subsystem (layer_store.py, grid.py, undo.py, replay.py). Pixel colors are
integer triples; layers are opaque transforms identified by index and name. -/

/-- RGB color triple; components are unconstrained integers, as Python ints. -/
abbrev Color : Type := Int × Int × Int

/-- Modelled from the spec: a Layer (layer_util.py is not among the core
sources) is an immutable transform with a stable index, a name used for
lexicographic ordering, and a pure apply function. -/
structure Layer where
  index : Nat
  name : String
  apply : Color → Nat → Nat → Nat → Color

/-- Modelled from the spec: bounded FIFO queue
(data_structures.queue_adt.CircularQueue is not among the core sources); fixed
capacity, capacity overflow rejected silently rather than raising, per the
error-handling design. Items are listed front first. -/
structure CircularQueue (α : Type) where
  capacity : Nat
  items : List α

def CircularQueue.is_empty (q : CircularQueue α) : Bool :=
  q.items.isEmpty

def CircularQueue.is_full (q : CircularQueue α) : Bool :=
  q.items.length == q.capacity

def CircularQueue.append (q : CircularQueue α) (x : α) : CircularQueue α :=
  if q.items.length < q.capacity then ⟨q.capacity, q.items ++ [x]⟩ else q

def CircularQueue.serve (q : CircularQueue α) : Option (α × CircularQueue α) :=
  match q.items with
  | [] => none
  | x :: rest => some (x, ⟨q.capacity, rest⟩)

/-- Modelled from the spec: bounded LIFO stack
(data_structures.stack_adt.ArrayStack is not among the core sources); fixed
capacity, capacity overflow rejected silently rather than raising. Items are
listed top first. -/
structure ArrayStack (α : Type) where
  capacity : Nat
  items : List α

def ArrayStack.is_empty (s : ArrayStack α) : Bool :=
  s.items.isEmpty

def ArrayStack.push (s : ArrayStack α) (x : α) : ArrayStack α :=
  if s.items.length < s.capacity then ⟨s.capacity, x :: s.items⟩ else s

def ArrayStack.pop (s : ArrayStack α) : Option (α × ArrayStack α) :=
  match s.items with
  | [] => none
  | x :: rest => some (x, ⟨s.capacity, rest⟩)

theorem ArrayStack.push_full (s : ArrayStack α) (x : α) (h : s.items.length = s.capacity) :
    s.push x = s := by
  simp [ArrayStack.push, h]

/-- SetLayerStore state (layer_store.py, SetLayerStore): at most one held layer
and an invert flag. -/
structure SetLayerStore where
  layer : Option Layer
  invert : Bool

/-- SetLayerStore.get_color (layer_store.py lines 85-116): with an empty slot it
returns (0,0,0) when invert is set and start otherwise; with a held layer it
applies the layer and inverts the result component-wise when invert is set. -/
def SetLayerStore.get_color (s : SetLayerStore) (start : Color) (timestamp x y : Nat) : Color :=
  match s.layer with
  | none => if s.invert then (0, 0, 0) else start
  | some l =>
    let color := l.apply start timestamp x y
    if s.invert then (255 - color.1, 255 - color.2.1, 255 - color.2.2) else color

/-- Modelled from the spec: layer equality is identity by index (the Layer
class itself is external to the core sources). -/
def Layer.sameLayer (a b : Layer) : Bool :=
  a.index == b.index

/-- SetLayerStore.add (layer_store.py lines 65-83): replace the held layer iff
it differs from the current one. -/
def SetLayerStore.add (s : SetLayerStore) (layer : Layer) : Bool × SetLayerStore :=
  match s.layer with
  | none => (true, { s with layer := some layer })
  | some cur =>
    if Layer.sameLayer layer cur then (false, s) else (true, { s with layer := some layer })

/-- SetLayerStore.erase (layer_store.py lines 119-137): clear the slot, the
passed layer is ignored. -/
def SetLayerStore.erase (s : SetLayerStore) (_layer : Layer) : Bool × SetLayerStore :=
  match s.layer with
  | none => (false, s)
  | some _ => (true, { s with layer := none })

/-- SetLayerStore.special (layer_store.py lines 140-149): toggle the invert
flag. -/
def SetLayerStore.special (s : SetLayerStore) : SetLayerStore :=
  { s with invert := !s.invert }

/-- C1 (amended): SetLayerStore.get_color returns start when the slot is empty
and invert is off; returns (0,0,0) — not the component-wise inversion of the
base — when the slot is empty and invert is on; and with a held layer it
returns c = layer.apply(start,t,x,y), inverted component-wise to 255 - c per
channel iff invert is true. -/
theorem setStore_get_color_cases (start : Color) (t x y : Nat) (l : Layer) (inv : Bool) :
    (SetLayerStore.mk none false).get_color start t x y = start ∧
    (SetLayerStore.mk none true).get_color start t x y = (0, 0, 0) ∧
    (SetLayerStore.mk (some l) inv).get_color start t x y =
      (let c := l.apply start t x y
       if inv then (255 - c.1, 255 - c.2.1, 255 - c.2.2) else c) :=
  ⟨rfl, rfl, rfl⟩

/-- C1 counterexample: with no layer held, invert on and base color (10,20,30),
the code returns (0,0,0) rather than the fully inverted base (245,235,225)
the claim prescribes. -/
theorem setStore_invert_empty_cex :
    (SetLayerStore.mk none true).get_color (10, 20, 30) 0 0 0 ≠ (245, 235, 225) := by
  decide

/-- AdditiveLayerStore state (layer_store.py, AdditiveLayerStore). The Python
object holds two CircularQueue references, self.layers and self.layers2; after
one get_color the assignment self.layers = self.layers2 makes the two names
refer to the same queue object, so the embedding carries the contents of the
object each name refers to plus a flag recording whether the two names alias
one object (in which case lq and l2q are kept equal). -/
structure AdditiveLayerStore where
  lq : CircularQueue Layer
  l2q : CircularQueue Layer
  shared : Bool

/-- AdditiveLayerStore.__init__ (layer_store.py lines 161-170): two distinct
capacity-20 queues. -/
def AdditiveLayerStore.initial : AdditiveLayerStore :=
  ⟨⟨20, []⟩, ⟨20, []⟩, false⟩

/-- AdditiveLayerStore.add (layer_store.py lines 173-192): append to
self.layers unless it is full. -/
def AdditiveLayerStore.add (s : AdditiveLayerStore) (layer : Layer) : Bool × AdditiveLayerStore :=
  if s.lq.is_full then (false, s)
  else
    let lq' := s.lq.append layer
    (true, { s with lq := lq', l2q := if s.shared then lq' else s.l2q })

/-- AdditiveLayerStore.erase (layer_store.py lines 227-248): serve the oldest
layer from self.layers if non-empty; the passed layer is ignored. -/
def AdditiveLayerStore.erase (s : AdditiveLayerStore) (_layer : Layer) : Bool × AdditiveLayerStore :=
  match s.lq.items with
  | [] => (false, s)
  | _ :: rest =>
    let lq' : CircularQueue Layer := ⟨s.lq.capacity, rest⟩
    (true, { s with lq := lq', l2q := if s.shared then lq' else s.l2q })

/-- Drain loop of AdditiveLayerStore.special (layer_store.py lines 262-264):
serve each layer from the queue and push it onto the stack. -/
def specialDrain : List Layer → ArrayStack Layer → ArrayStack Layer
  | [], st => st
  | l :: ls, st => specialDrain ls (st.push l)

/-- Rebuild loop of AdditiveLayerStore.special (layer_store.py lines 266-267):
pop each layer from the stack and append it to the reversed queue. -/
def specialRebuild : List Layer → CircularQueue Layer → CircularQueue Layer
  | [], q => q
  | l :: ls, q => specialRebuild ls (q.append l)

/-- AdditiveLayerStore.special (layer_store.py lines 250-269): drain
self.layers into a stack of capacity len(self.layers), rebuild a reversed
queue of capacity len(self.layers), and point self.layers at it. Draining
empties the object self.layers referred to; when the two names alias that one
object, self.layers2 is left referring to the drained empty queue. -/
def AdditiveLayerStore.special (s : AdditiveLayerStore) : AdditiveLayerStore :=
  let stack := specialDrain s.lq.items ⟨s.lq.items.length, []⟩
  let reversed_queue := specialRebuild stack.items ⟨s.lq.items.length, []⟩
  let drained : CircularQueue Layer := ⟨s.lq.capacity, []⟩
  ⟨reversed_queue, if s.shared then drained else s.l2q, false⟩

/-- One serve of the get_color loop (layer_store.py line 216): take the front
item of the object self.layers refers to; under aliasing self.layers2 sees the
same mutation. -/
def gcStepServe (s : AdditiveLayerStore) : Option (Layer × AdditiveLayerStore) :=
  match s.lq.items with
  | [] => none
  | item :: rest =>
    let lq' : CircularQueue Layer := ⟨s.lq.capacity, rest⟩
    some (item, { s with lq := lq', l2q := if s.shared then lq' else s.l2q })

/-- One append of the get_color loop (layer_store.py line 219): append the
served item to the object self.layers2 refers to; under aliasing self.layers
sees the same mutation. -/
def gcStepAppend (s : AdditiveLayerStore) (item : Layer) : AdditiveLayerStore :=
  let l2q' := s.l2q.append item
  { s with l2q := l2q', lq := if s.shared then l2q' else s.lq }

/-- Body of the get_color loop (layer_store.py lines 215-219), run once per
item counted before the loop starts: serve, apply, thread the color, append.
Serving from an empty queue would raise in Python, encoded as none. -/
def gcLoop (t x y : Nat) : Nat → Color → AdditiveLayerStore → Option (Color × AdditiveLayerStore)
  | 0, start, s => some (start, s)
  | Nat.succ n, start, s =>
    match gcStepServe s with
    | none => none
    | some (item, s1) =>
      let colors := item.apply start t x y
      gcLoop t x y n colors (gcStepAppend s1 item)

/-- AdditiveLayerStore.get_color (layer_store.py lines 194-224): empty store
returns start untouched; otherwise run the serve/apply/append loop
len(self.layers) times and finish with self.layers = self.layers2, after which
both names alias one queue object. -/
def AdditiveLayerStore.get_color (s : AdditiveLayerStore) (start : Color) (t x y : Nat) :
    Option (Color × AdditiveLayerStore) :=
  if s.lq.items.isEmpty then some (start, s)
  else
    match gcLoop t x y s.lq.items.length start s with
    | none => none
    | some (colors, s1) => some (colors, { s1 with lq := s1.l2q, shared := true })

/-- States of the additive store reachable from a fresh store by any sequence
of add, erase, special and get_color calls. -/
inductive AdditiveLayerStore.Reachable : AdditiveLayerStore → Prop
  | init : AdditiveLayerStore.Reachable AdditiveLayerStore.initial
  | add (s : AdditiveLayerStore) (l : Layer) :
      AdditiveLayerStore.Reachable s → AdditiveLayerStore.Reachable (s.add l).2
  | erase (s : AdditiveLayerStore) (l : Layer) :
      AdditiveLayerStore.Reachable s → AdditiveLayerStore.Reachable (s.erase l).2
  | special (s : AdditiveLayerStore) :
      AdditiveLayerStore.Reachable s → AdditiveLayerStore.Reachable s.special
  | get_color (s s' : AdditiveLayerStore) (start c : Color) (t x y : Nat) :
      AdditiveLayerStore.Reachable s → s.get_color start t x y = some (c, s') →
      AdditiveLayerStore.Reachable s'

/-- Structural invariant of reachable additive stores: the live queue never
holds more than its capacity, the capacity never exceeds 20, and the scratch
queue is either the very same aliased capacity-20 object or a distinct empty
capacity-20 queue. -/
def AddInv (s : AdditiveLayerStore) : Prop :=
  s.lq.items.length ≤ s.lq.capacity ∧ s.lq.capacity ≤ 20 ∧
    (if s.shared then s.l2q = s.lq ∧ s.lq.capacity = 20
     else s.l2q.items = [] ∧ s.l2q.capacity = 20)

/-- Color-threading function folded by the additive get_color loop. -/
def applyStep (t x y : Nat) (c : Color) (l : Layer) : Color :=
  l.apply c t x y

theorem specialDrain_items (L : List Layer) :
    ∀ (acc : List Layer) (cap : Nat), L.length + acc.length ≤ cap →
      (specialDrain L ⟨cap, acc⟩).items = L.reverse ++ acc := by
  induction L with
  | nil => intro acc cap _; simp [specialDrain]
  | cons l ls ih =>
    intro acc cap h
    have hlt : acc.length < cap := by
      simp only [List.length_cons] at h
      omega
    have hpush : (ArrayStack.mk cap acc).push l = ⟨cap, l :: acc⟩ := by
      simp [ArrayStack.push, hlt]
    have hlen : ls.length + (l :: acc).length ≤ cap := by
      simp only [List.length_cons] at h ⊢
      omega
    have hrec := ih (l :: acc) cap hlen
    show (specialDrain ls ((ArrayStack.mk cap acc).push l)).items = _
    rw [hpush, hrec]
    simp

theorem specialRebuild_items (L : List Layer) :
    ∀ (acc : List Layer) (cap : Nat), acc.length + L.length ≤ cap →
      specialRebuild L ⟨cap, acc⟩ = ⟨cap, acc ++ L⟩ := by
  induction L with
  | nil => intro acc cap _; simp [specialRebuild]
  | cons l ls ih =>
    intro acc cap h
    have hlt : acc.length < cap := by
      simp only [List.length_cons] at h
      omega
    have happ : (CircularQueue.mk cap acc).append l = ⟨cap, acc ++ [l]⟩ := by
      simp [CircularQueue.append, hlt]
    have hlen : (acc ++ [l]).length + ls.length ≤ cap := by
      simp only [List.length_append, List.length_cons, List.length_nil] at h ⊢
      omega
    have hrec := ih (acc ++ [l]) cap hlen
    show specialRebuild ls ((CircularQueue.mk cap acc).append l) = _
    rw [happ, hrec]
    simp

/-- special always leaves the live queue holding the reverse of the previous
layer sequence, with capacity equal to that sequence's length. -/
theorem special_lq (s : AdditiveLayerStore) :
    s.special.lq = ⟨s.lq.items.length, s.lq.items.reverse⟩ := by
  have hd := specialDrain_items s.lq.items [] s.lq.items.length (by simp)
  have hr := specialRebuild_items (s.lq.items.reverse) [] s.lq.items.length (by simp)
  simp only [AdditiveLayerStore.special, hd, List.append_nil, hr, List.nil_append]

theorem gcLoop_sep (t x y : Nat) (L : List Layer) :
    ∀ (c : Color) (cap1 cap2 : Nat) (M : List Layer), M.length + L.length ≤ cap2 →
      gcLoop t x y L.length c ⟨⟨cap1, L⟩, ⟨cap2, M⟩, false⟩ =
        some (L.foldl (applyStep t x y) c, ⟨⟨cap1, []⟩, ⟨cap2, M ++ L⟩, false⟩) := by
  induction L with
  | nil => intro c cap1 cap2 M _; simp [gcLoop]
  | cons a L' ih =>
    intro c cap1 cap2 M h
    have hlt : M.length < cap2 := by
      simp only [List.length_cons] at h
      omega
    have hlen : (M ++ [a]).length + L'.length ≤ cap2 := by
      simp only [List.length_append, List.length_cons, List.length_nil] at h ⊢
      omega
    have hrec := ih (a.apply c t x y) cap1 cap2 (M ++ [a]) hlen
    have hstep : gcLoop t x y (L'.length + 1) c ⟨⟨cap1, a :: L'⟩, ⟨cap2, M⟩, false⟩ =
        gcLoop t x y L'.length (a.apply c t x y) ⟨⟨cap1, L'⟩, ⟨cap2, M ++ [a]⟩, false⟩ := by
      simp [gcLoop, gcStepServe, gcStepAppend, CircularQueue.append, hlt]
    simp only [List.length_cons, List.foldl_cons]
    rw [hstep, hrec]
    simp [applyStep]

theorem gcLoop_shared (t x y : Nat) (L1 : List Layer) :
    ∀ (c : Color) (cap : Nat) (L2 : List Layer), L1.length + L2.length ≤ cap →
      gcLoop t x y L1.length c ⟨⟨cap, L1 ++ L2⟩, ⟨cap, L1 ++ L2⟩, true⟩ =
        some (L1.foldl (applyStep t x y) c, ⟨⟨cap, L2 ++ L1⟩, ⟨cap, L2 ++ L1⟩, true⟩) := by
  induction L1 with
  | nil => intro c cap L2 _; simp [gcLoop]
  | cons a L1' ih =>
    intro c cap L2 h
    have hlt : L1'.length + L2.length < cap := by
      simp only [List.length_cons] at h
      omega
    have hlen : L1'.length + (L2 ++ [a]).length ≤ cap := by
      simp only [List.length_cons] at h
      simp only [List.length_append, List.length_cons, List.length_nil]
      omega
    have hrec := ih (a.apply c t x y) cap (L2 ++ [a]) hlen
    have hstep : gcLoop t x y (L1'.length + 1) c
          ⟨⟨cap, a :: (L1' ++ L2)⟩, ⟨cap, a :: (L1' ++ L2)⟩, true⟩ =
        gcLoop t x y L1'.length (a.apply c t x y)
          ⟨⟨cap, (L1' ++ L2) ++ [a]⟩, ⟨cap, (L1' ++ L2) ++ [a]⟩, true⟩ := by
      simp [gcLoop, gcStepServe, gcStepAppend, CircularQueue.append, hlt]
    have harr : (L1' ++ L2) ++ [a] = L1' ++ (L2 ++ [a]) := by
      simp
    simp only [List.cons_append, List.length_cons, List.foldl_cons]
    rw [hstep, harr, hrec]
    simp [applyStep]

theorem special_l2q (s : AdditiveLayerStore) :
    s.special.l2q = if s.shared then ⟨s.lq.capacity, []⟩ else s.l2q :=
  rfl

theorem special_shared (s : AdditiveLayerStore) :
    s.special.shared = false :=
  rfl

/-- AddInv characterisation of get_color: it succeeds, returns the left fold of
apply over the held layers in order, and preserves both the layer sequence and
the invariant. -/
theorem get_color_spec (s : AdditiveLayerStore) (h : AddInv s) (start : Color) (t x y : Nat) :
    ∃ s', s.get_color start t x y =
        some (s.lq.items.foldl (applyStep t x y) start, s') ∧
      s'.lq.items = s.lq.items ∧ AddInv s' := by
  obtain ⟨⟨cap1, L⟩, l2q, shared⟩ := s
  obtain ⟨h1, h2, h3⟩ := h
  simp only at h1 h2 h3
  by_cases hL : L = []
  · subst hL
    exact ⟨⟨⟨cap1, []⟩, l2q, shared⟩, by simp [AdditiveLayerStore.get_color], rfl, h1, h2, h3⟩
  · have hne : L.isEmpty = false := by
      cases L with
      | nil => exact absurd rfl hL
      | cons a as => rfl
    have hlen20 : L.length ≤ 20 := le_trans h1 h2
    cases shared with
    | true =>
      simp only [if_pos] at h3
      obtain ⟨h4, h5⟩ := h3
      subst h5
      have h4' : l2q = ⟨20, L⟩ := h4
      subst h4'
      have hgc : gcLoop t x y L.length start ⟨⟨20, L⟩, ⟨20, L⟩, true⟩ =
          some (L.foldl (applyStep t x y) start, ⟨⟨20, L⟩, ⟨20, L⟩, true⟩) := by
        have := gcLoop_shared t x y L start 20 [] (by simpa using hlen20)
        simpa using this
      refine ⟨⟨⟨20, L⟩, ⟨20, L⟩, true⟩, ?_, rfl, hlen20, le_refl 20, by simp⟩
      simp [AdditiveLayerStore.get_color, hne, hgc]
    | false =>
      simp only [Bool.false_eq_true, if_false] at h3
      obtain ⟨h4, h5⟩ := h3
      obtain ⟨cap2, M⟩ := l2q
      simp only at h4 h5
      subst h4
      subst h5
      have hgc : gcLoop t x y L.length start ⟨⟨cap1, L⟩, ⟨20, []⟩, false⟩ =
          some (L.foldl (applyStep t x y) start, ⟨⟨cap1, []⟩, ⟨20, L⟩, false⟩) := by
        have := gcLoop_sep t x y L start cap1 20 [] (by simpa using hlen20)
        simpa using this
      refine ⟨⟨⟨20, L⟩, ⟨20, L⟩, true⟩, ?_, rfl, hlen20, le_refl 20, by simp⟩
      simp [AdditiveLayerStore.get_color, hne, hgc]

theorem addInv_add (s : AdditiveLayerStore) (l : Layer) (h : AddInv s) : AddInv (s.add l).2 := by
  obtain ⟨⟨cap1, L⟩, l2q, shared⟩ := s
  obtain ⟨h1, h2, h3⟩ := h
  simp only at h1 h2 h3
  simp only [AdditiveLayerStore.add]
  split
  · exact ⟨h1, h2, h3⟩
  · rename_i hfull
    have hlt : L.length < cap1 := by
      simp [CircularQueue.is_full] at hfull
      omega
    have happ : (CircularQueue.mk cap1 L).append l = ⟨cap1, L ++ [l]⟩ := by
      simp [CircularQueue.append, hlt]
    cases shared with
    | true =>
      simp only [if_pos] at h3
      obtain ⟨h4, h5⟩ := h3
      refine ⟨?_, ?_, ?_⟩ <;> simp [happ] <;> omega
    | false =>
      simp only [Bool.false_eq_true, if_false] at h3
      obtain ⟨h4, h5⟩ := h3
      refine ⟨?_, ?_, ?_⟩ <;> simp [happ, h4, h5] <;> omega

theorem addInv_erase (s : AdditiveLayerStore) (l : Layer) (h : AddInv s) : AddInv (s.erase l).2 := by
  obtain ⟨⟨cap1, L⟩, l2q, shared⟩ := s
  obtain ⟨h1, h2, h3⟩ := h
  simp only at h1 h2 h3
  cases L with
  | nil => exact ⟨h1, h2, h3⟩
  | cons a rest =>
    simp only [AdditiveLayerStore.erase]
    simp only [List.length_cons] at h1
    cases shared with
    | true =>
      simp only [if_pos] at h3
      obtain ⟨h4, h5⟩ := h3
      refine ⟨?_, ?_, ?_⟩ <;> simp <;> omega
    | false =>
      simp only [Bool.false_eq_true, if_false] at h3
      obtain ⟨h4, h5⟩ := h3
      refine ⟨?_, ?_, ?_⟩ <;> simp [h4, h5] <;> omega

theorem addInv_special (s : AdditiveLayerStore) (h : AddInv s) : AddInv s.special := by
  obtain ⟨h1, h2, h3⟩ := h
  refine ⟨?_, ?_, ?_⟩
  · rw [special_lq]
    simp
  · rw [special_lq]
    simp only
    omega
  · rw [special_shared, special_l2q]
    simp only [Bool.false_eq_true, if_false]
    cases hs : s.shared with
    | true =>
      rw [hs] at h3
      simp only [if_pos] at h3
      simp [h3.2]
    | false =>
      rw [hs] at h3
      simp only [Bool.false_eq_true, if_false] at h3
      simp [hs, h3.1, h3.2]

/-- Every reachable additive store satisfies the structural invariant. -/
theorem reachable_addInv (s : AdditiveLayerStore) (h : AdditiveLayerStore.Reachable s) :
    AddInv s := by
  induction h with
  | init => exact ⟨by simp [AdditiveLayerStore.initial], by simp [AdditiveLayerStore.initial],
      by simp [AdditiveLayerStore.initial]⟩
  | add s l _ ih => exact addInv_add s l ih
  | erase s l _ ih => exact addInv_erase s l ih
  | special s _ ih => exact addInv_special s ih
  | get_color s s' start c t x y _ heq ih =>
    obtain ⟨s'', hrun, _, hinv⟩ := get_color_spec s ih start t x y
    rw [heq] at hrun
    obtain ⟨-, rfl⟩ := Prod.mk.injEq .. ▸ Option.some.injEq .. ▸ hrun
    exact hinv

/-- Example layer with index 0 used in concrete runs. -/
def exL1 : Layer := ⟨0, "a", fun c _ _ _ => c⟩

/-- Example layer with index 1 used in concrete runs. -/
def exL2 : Layer := ⟨1, "b", fun c _ _ _ => c⟩

/-- Store reached by one add on a fresh additive store. -/
def addS1 : AdditiveLayerStore := (AdditiveLayerStore.initial.add exL1).2

/-- Store reached by add then special on a fresh additive store; its live queue
has capacity 1. -/
def addS2 : AdditiveLayerStore := addS1.special

/-- C3 (amended): every reachable additive store holds at most 20 layers; add
appends to the tail and returns true exactly when the live queue is below its
own capacity, and returns false leaving the store unchanged when the queue is
full; after erase on a full store that holds at least one layer, one more add
succeeds. (The queue capacity is 20 initially but becomes the held count after
each special, so add can fail with fewer than 20 layers held.) -/
theorem add_fst (s : AdditiveLayerStore) (l : Layer) :
    (s.add l).1 = !s.lq.is_full := by
  simp only [AdditiveLayerStore.add]
  split
  · rename_i hfull
    simp [hfull]
  · rename_i hfull
    simp only [Bool.not_eq_true] at hfull
    simp [hfull]

theorem additive_capacity_spec (s : AdditiveLayerStore) (h : AdditiveLayerStore.Reachable s)
    (l l' : Layer) :
    s.lq.items.length ≤ 20 ∧
    (s.lq.is_full = true → s.add l = (false, s)) ∧
    (s.lq.is_full = false →
      (s.add l).1 = true ∧ (s.add l).2.lq.items = s.lq.items ++ [l]) ∧
    (s.lq.is_full = true → s.lq.items ≠ [] → ((s.erase l').2.add l).1 = true) := by
  have hinv := reachable_addInv s h
  obtain ⟨⟨cap1, L⟩, l2q, shared⟩ := s
  obtain ⟨h1, h2, h3⟩ := hinv
  simp only at h1 h2 h3 ⊢
  refine ⟨le_trans h1 h2, ?_, ?_, ?_⟩
  · intro hfull
    simp [AdditiveLayerStore.add, hfull]
  · intro hnf
    have hlt : L.length < cap1 := by
      simp [CircularQueue.is_full] at hnf
      omega
    have happ : (CircularQueue.mk cap1 L).append l = ⟨cap1, L ++ [l]⟩ := by
      simp [CircularQueue.append, hlt]
    constructor
    · simp [AdditiveLayerStore.add, hnf]
    · simp [AdditiveLayerStore.add, hnf, happ]
  · intro hfull hne
    have hcap : L.length = cap1 := by
      simp [CircularQueue.is_full] at hfull
      exact hfull
    cases L with
    | nil => exact absurd rfl hne
    | cons a rest =>
      rw [add_fst]
      have hef : ((⟨⟨cap1, a :: rest⟩, l2q, shared⟩ : AdditiveLayerStore).erase l').2.lq =
          ⟨cap1, rest⟩ := rfl
      rw [hef]
      simp only [List.length_cons] at hcap
      simp [CircularQueue.is_full]
      omega

/-- C3 counterexample: add-then-special leaves a store holding one layer (fewer
than 20) on which add fails; and special on the fresh empty store produces a
full capacity-0 queue on which erase keeps returning false, so erase does not
re-enable add there. -/
theorem additive_capacity_cex :
    (addS2.add exL2).1 = false ∧
    addS2.lq.items.length = 1 ∧
    AdditiveLayerStore.initial.special.lq.is_full = true ∧
    (AdditiveLayerStore.initial.special.erase exL1).1 = false ∧
    ((AdditiveLayerStore.initial.special.erase exL1).2.add exL2).1 = false :=
  ⟨rfl, rfl, rfl, rfl, rfl⟩

/-- C6 (amended): on every reachable additive store, get_color succeeds,
leaves the logical layer sequence exactly as it was, is idempotent (an
immediate second call with the same arguments yields the same color), and
returns start on an empty store. (It is not fully frame-preserving for the
ability to accept adds: it rebuilds the live queue at capacity 20 even when a
prior special had shrunk the capacity.) -/
theorem additive_get_color_pure (s : AdditiveLayerStore)
    (h : AdditiveLayerStore.Reachable s) (start : Color) (t x y : Nat) :
    ∃ c s', s.get_color start t x y = some (c, s') ∧
      s'.lq.items = s.lq.items ∧
      (∃ s'', s'.get_color start t x y = some (c, s'') ∧ s''.lq.items = s.lq.items) ∧
      (s.lq.items = [] → c = start) := by
  have hinv := reachable_addInv s h
  obtain ⟨s', hrun, hitems, hinv'⟩ := get_color_spec s hinv start t x y
  obtain ⟨s'', hrun', hitems', _⟩ := get_color_spec s' hinv' start t x y
  rw [hitems] at hrun' hitems'
  refine ⟨_, s', hrun, hitems, ⟨s'', hrun', hitems'⟩, ?_⟩
  intro hnil
  rw [hnil]
  rfl

/-- C6 witness: the non-empty reachable store addS1 realises the conclusion. -/
theorem additive_get_color_pure_witness :
    ∃ c s', addS1.get_color (1, 2, 3) 0 0 0 = some (c, s') ∧
      s'.lq.items = addS1.lq.items ∧
      (∃ s'', s'.get_color (1, 2, 3) 0 0 0 = some (c, s'') ∧ s''.lq.items = addS1.lq.items) ∧
      (addS1.lq.items = [] → c = (1, 2, 3)) :=
  additive_get_color_pure addS1
    (AdditiveLayerStore.Reachable.add AdditiveLayerStore.initial exL1
      AdditiveLayerStore.Reachable.init) (1, 2, 3) 0 0 0

/-- C6 counterexample: get_color changes the store's ability to accept future
adds. On the reachable store addS2 (one held layer, live capacity 1) add
fails, but after a get_color on the very same store the same add succeeds. -/
theorem additive_get_color_capacity_cex :
    (addS2.add exL2).1 = false ∧
    (match addS2.get_color (1, 2, 3) 0 0 0 with
     | some (_, s3) => (s3.add exL2).1
     | none => false) = true :=
  ⟨rfl, rfl⟩

/-- C7 (confirmed): on every reachable additive store holding layers L1..Ln
(oldest first), get_color returns the left fold of apply over L1..Ln threading
the color; one special reverses the held order so a following get_color folds
over Ln..L1; and two specials with no intervening add or erase restore the
original layer sequence. -/
theorem additive_fold_reverse_involution (s : AdditiveLayerStore)
    (h : AdditiveLayerStore.Reachable s) (start : Color) (t x y : Nat) :
    (∃ s', s.get_color start t x y =
        some (s.lq.items.foldl (applyStep t x y) start, s')) ∧
    s.special.lq.items = s.lq.items.reverse ∧
    s.special.special.lq.items = s.lq.items ∧
    (∃ s', s.special.get_color start t x y =
        some (s.lq.items.reverse.foldl (applyStep t x y) start, s')) := by
  have hinv := reachable_addInv s h
  obtain ⟨s', hrun, _, _⟩ := get_color_spec s hinv start t x y
  have hinvs := addInv_special s hinv
  obtain ⟨s2, hrun2, _, _⟩ := get_color_spec s.special hinvs start t x y
  have e1 := special_lq s
  have e2 := special_lq s.special
  refine ⟨⟨s', hrun⟩, by rw [e1], ?_, ⟨s2, ?_⟩⟩
  · rw [e2, e1]
    simp
  · rw [hrun2, e1]

/-- C7 witness: instantiation at the reachable store addS1. -/
theorem additive_fold_reverse_involution_witness :
    (∃ s', addS1.get_color (1, 2, 3) 0 0 0 =
        some (addS1.lq.items.foldl (applyStep 0 0 0) (1, 2, 3), s')) ∧
    addS1.special.lq.items = addS1.lq.items.reverse ∧
    addS1.special.special.lq.items = addS1.lq.items ∧
    (∃ s', addS1.special.get_color (1, 2, 3) 0 0 0 =
        some (addS1.lq.items.reverse.foldl (applyStep 0 0 0) (1, 2, 3), s')) :=
  additive_fold_reverse_involution addS1
    (AdditiveLayerStore.Reachable.add AdditiveLayerStore.initial exL1
      AdditiveLayerStore.Reachable.init) (1, 2, 3) 0 0 0

/-- Placeholder layer returned by out-of-range registry reads; all registry
reads performed by the code below are in range, so it is never selected. -/
def defaultLayer : Layer := ⟨0, "", fun c _ _ _ => c⟩

/-- Modelled from the spec: the BSet (data_structures.bset is not among the
core sources) is a bit-vector set of positive integers, item n stored as bit
n-1 of a natural number. -/
structure BSet where
  elems : Nat
  deriving DecidableEq

def BSet.contains (s : BSet) (item : Nat) : Bool :=
  (s.elems >>> (item - 1)) % 2 == 1

def BSet.addItem (s : BSet) (item : Nat) : BSet :=
  ⟨s.elems ||| (1 <<< (item - 1))⟩

/-- Clearing bit item-1; on Python's unbounded ints this is elems with that
bit forced to zero. -/
def BSet.removeItem (s : BSet) (item : Nat) : BSet :=
  ⟨s.elems - (if s.contains item then 1 <<< (item - 1) else 0)⟩

def BSet.is_empty (s : BSet) : Bool :=
  s.elems == 0

/-- Set holding exactly the listed positive integers. -/
def bsetOf (l : List Nat) : BSet :=
  l.foldl BSet.addItem ⟨0⟩

/-- SequenceLayerStore state (layer_store.py, SequenceLayerStore): the BSet of
index+1 values of the active layers. The registry self.registered_layers =
get_layers() (layer_util is not among the core sources) is modelled from the
spec as the fixed ordered sequence of registered layers, indexable by layer
index, and is passed to each method that reads it. -/
structure SequenceLayerStore where
  layers : BSet

/-- SequenceLayerStore.add (layer_store.py lines 292-310): mark index+1 active
iff not already active. -/
def SequenceLayerStore.add (s : SequenceLayerStore) (layer : Layer) :
    Bool × SequenceLayerStore :=
  if s.layers.contains (layer.index + 1) then (false, s)
  else (true, ⟨s.layers.addItem (layer.index + 1)⟩)

/-- SequenceLayerStore.erase (layer_store.py lines 342-361): mark index+1
inactive iff currently active. -/
def SequenceLayerStore.erase (s : SequenceLayerStore) (layer : Layer) :
    Bool × SequenceLayerStore :=
  if s.layers.contains (layer.index + 1) then (true, ⟨s.layers.removeItem (layer.index + 1)⟩)
  else (false, s)

/-- SequenceLayerStore.get_color (layer_store.py lines 312-339): color is
seeded only for an empty active set, then `for i in range(1,
len(self.registered_layers))` applies registered_layers[i-1] whenever i is
active, threading the color; a run that assigns color on no iteration while
the set is non-empty leaves color unassigned, Python's UnboundLocalError,
encoded as none. -/
def SequenceLayerStore.get_color (reg : List Layer) (s : SequenceLayerStore)
    (start : Color) (timestamp x y : Nat) : Option Color :=
  let init : Color × Option Color :=
    (start, if s.layers.is_empty then some start else none)
  let result := (List.range' 1 (reg.length - 1)).foldl
    (fun acc i =>
      if s.layers.contains i then
        let c := (reg.getD (i - 1) defaultLayer).apply acc.1 timestamp x y
        (c, some c)
      else acc) init
  result.2

/-- Lexicographic order on character sequences, by code point. -/
def lexLt : List Char → List Char → Bool
  | [], [] => false
  | [], _ :: _ => true
  | _ :: _, [] => false
  | a :: as, b :: bs =>
    if a.toNat < b.toNat then true
    else if b.toNat < a.toNat then false
    else lexLt as bs

/-- Lexicographic order on layer names (Python string comparison). -/
def strLt (a b : String) : Bool :=
  lexLt a.data b.data

/-- Modelled from the spec: ArraySortedList.add (data_structures
.array_sorted_list is not among the core sources) keeps items ascending by
their key — here the layer name — inserting an incoming item before the first
strictly greater key. -/
def sortedListAdd : List Layer → Layer → List Layer
  | [], l => [l]
  | x :: xs, l => if strLt l.name x.name then l :: x :: xs else x :: sortedListAdd xs l

/-- SequenceLayerStore.find_mid (layer_store.py lines 391-413): middle element
for odd length, element left of the middle for even length. -/
def SequenceLayerStore.find_mid (array : List Layer) : Layer :=
  let length := array.length
  let mid := if length % 2 = 1 then length / 2 else length / 2 - 1
  array.getD mid defaultLayer

/-- SequenceLayerStore.special (layer_store.py lines 364-389): collect the
layers of the active indices visited by `range(1, len(self.registered_layers))`
into a name-sorted list, and erase the find_mid element unless the list is
empty. -/
def SequenceLayerStore.special (reg : List Layer) (s : SequenceLayerStore) :
    SequenceLayerStore :=
  let array_list := (List.range' 1 (reg.length - 1)).foldl
    (fun acc i =>
      if s.layers.contains i then sortedListAdd acc (reg.getD (i - 1) defaultLayer) else acc) []
  if array_list.length = 0 then s
  else (s.erase (SequenceLayerStore.find_mid array_list)).2

/-- Two-layer registry for the C2 run: the index-0 layer adds 1 to the red
channel, the index-1 layer adds 2. -/
def regC2 : List Layer :=
  [⟨0, "p", fun c _ _ _ => (c.1 + 1, c.2.1, c.2.2)⟩,
   ⟨1, "q", fun c _ _ _ => (c.1 + 2, c.2.1, c.2.2)⟩]

/-- C2 (code bug): with registry regC2, activating only the largest-index
layer makes get_color fail (none: the loop never visits that slot, so color is
unassigned — UnboundLocalError), and with both layers active only the index-0
layer is applied, so (10,20,30) becomes (11,20,30) instead of the full
composition (13,20,30). -/
theorem seqStore_get_color_skips_last :
    SequenceLayerStore.get_color regC2 ⟨bsetOf [2]⟩ (10, 20, 30) 0 0 0 = none ∧
    SequenceLayerStore.get_color regC2 ⟨bsetOf [1, 2]⟩ (10, 20, 30) 0 0 0 =
      some (11, 20, 30) := by
  constructor <;> decide

/-- Three-layer registry for the C5 run, with names out of index order:
index 0 is "c", index 1 is "a", index 2 is "b". -/
def regC5 : List Layer :=
  [⟨0, "c", fun c _ _ _ => c⟩, ⟨1, "a", fun c _ _ _ => c⟩, ⟨2, "b", fun c _ _ _ => c⟩]

/-- C5 (code bug): with all three layers of regC5 active, special erases the
layer named "a" (the even-rule median of the two layers the loop visits,
names "a","c") instead of "b", the true lower median of the whole active set
"a","b","c"; and with only the largest-index layer active special is a no-op
instead of removing that layer. -/
theorem seqStore_special_ignores_last :
    (SequenceLayerStore.special regC5 ⟨bsetOf [1, 2, 3]⟩).layers = bsetOf [1, 3] ∧
    (SequenceLayerStore.special regC5 ⟨bsetOf [3]⟩).layers = bsetOf [3] := by
  constructor <;> decide

/-- C3 witness: instantiation at the reachable full store addS2. -/
theorem additive_capacity_spec_witness :
    addS2.lq.items.length ≤ 20 ∧
    addS2.add exL2 = (false, addS2) ∧
    ((addS2.erase exL1).2.add exL2).1 = true := by
  obtain ⟨w1, w2, -, w4⟩ := additive_capacity_spec addS2
    (AdditiveLayerStore.Reachable.special addS1
      (AdditiveLayerStore.Reachable.add AdditiveLayerStore.initial exL1
        AdditiveLayerStore.Reachable.init)) exL2 exL1
  exact ⟨w1, w2 rfl, w4 rfl (List.cons_ne_nil exL1 [])⟩

/-- Modelled from the spec: a PaintAction (action.py is not among the core
sources) is an opaque command exposing a forward application redo_apply and a
backward application undo_apply against a grid; the grid state stays
abstract. -/
structure PaintAction (G : Type) where
  redo_apply : G → G
  undo_apply : G → G

/-- UndoTracker state (undo.py lines 6-9). In Python, undo_array and
redo_array are class-level attributes: one process-wide pair of stacks that
every UndoTracker instance reads and mutates in place. No method ever rebinds
these names and the class defines no constructor, so the embedding is a single
shared state with no per-instance component. -/
structure UndoTracker (G : Type) where
  undo_array : ArrayStack (PaintAction G)
  redo_array : ArrayStack (PaintAction G)

/-- Class-attribute state as first created (undo.py lines 8-9): two empty
capacity-100000 stacks. -/
def UndoTracker.initial (G : Type) : UndoTracker G :=
  ⟨⟨100000, []⟩, ⟨100000, []⟩⟩

/-- UndoTracker.add_action (undo.py lines 11-25): push onto the undo stack. -/
def UndoTracker.add_action (s : UndoTracker G) (action : PaintAction G) : UndoTracker G :=
  { s with undo_array := s.undo_array.push action }

/-- UndoTracker.undo (undo.py lines 27-47): if the undo stack is empty return
none and change nothing; otherwise pop the most recent action, apply its
backward transform to the grid, push it onto the redo stack and return it. -/
def UndoTracker.undo (s : UndoTracker G) (grid : G) :
    Option (PaintAction G) × UndoTracker G × G :=
  match s.undo_array.pop with
  | none => (none, s, grid)
  | some (undoItem, rest) =>
    (some undoItem, ⟨rest, s.redo_array.push undoItem⟩, undoItem.undo_apply grid)

/-- UndoTracker.redo (undo.py lines 49-69): if the redo stack is empty return
none and change nothing; otherwise pop an action, apply its forward transform
to the grid and return it; nothing is pushed back onto the undo stack. -/
def UndoTracker.redo (s : UndoTracker G) (grid : G) :
    Option (PaintAction G) × UndoTracker G × G :=
  match s.redo_array.pop with
  | none => (none, s, grid)
  | some (redoItem, rest) =>
    (some redoItem, ⟨s.undo_array, rest⟩, redoItem.redo_apply grid)

/-- ReplayTracker state (replay.py lines 7-11): the record queue, the playback
queue and the replaying flag, class-level attributes modelled as one tracker
state. -/
structure ReplayTracker (G : Type) where
  action_queue : CircularQueue (PaintAction G × Bool)
  replay_queue : CircularQueue (PaintAction G × Bool)
  replaying : Bool

/-- Class-attribute state as first created (replay.py lines 9-11). -/
def ReplayTracker.initial (G : Type) : ReplayTracker G :=
  ⟨⟨1000, []⟩, ⟨1000, []⟩, false⟩

/-- ReplayTracker.start_replay (replay.py lines 14-24). -/
def ReplayTracker.start_replay (s : ReplayTracker G) : ReplayTracker G :=
  { s with replaying := true }

/-- ReplayTracker.add_action (replay.py lines 26-42): append the pair to the
record queue. -/
def ReplayTracker.add_action (s : ReplayTracker G) (action : PaintAction G)
    (is_undo : Bool) : ReplayTracker G :=
  { s with action_queue := s.action_queue.append (action, is_undo) }

/-- ReplayTracker.play_next_action (replay.py lines 45-78): outside playback
mode report finished at once; in playback mode report finished and leave the
mode when both queues are empty, otherwise move the whole record queue into
the empty playback queue (a fresh empty record queue replaces it), serve one
pair and apply the action backward when it was recorded as an undo, forward
otherwise. The serve cannot find the queue empty — the preceding guards rule
that out — and Python's `if action is None` fallback likewise reports a
finished replay, the value used for that branch here. -/
def ReplayTracker.play_next_action (s : ReplayTracker G) (grid : G) :
    Bool × ReplayTracker G × G :=
  if s.replaying then
    if s.replay_queue.is_empty && s.action_queue.is_empty then
      (true, { s with replaying := false }, grid)
    else
      let s1 := if s.replay_queue.is_empty then
          { s with replay_queue := s.action_queue, action_queue := ⟨1000, []⟩ }
        else s
      match s1.replay_queue.serve with
      | none => (true, s1, grid)
      | some ((action, is_undo), rq) =>
        (false, { s1 with replay_queue := rq },
          if is_undo then action.undo_apply grid else action.redo_apply grid)
  else (true, s, grid)

/-- C4 (confirmed): recording into a full history container is a silent no-op:
UndoTracker.add_action with the undo stack at capacity returns normally with
the state unchanged, and ReplayTracker.add_action with the record queue at
capacity returns normally with the state unchanged. -/
theorem trackers_full_silent_drop (G : Type) (u : UndoTracker G) (r : ReplayTracker G)
    (a : PaintAction G) (b : Bool)
    (hu : u.undo_array.items.length = u.undo_array.capacity)
    (hr : r.action_queue.items.length = r.action_queue.capacity) :
    u.add_action a = u ∧ r.add_action a b = r := by
  constructor
  · simp [UndoTracker.add_action, ArrayStack.push, hu]
  · simp [ReplayTracker.add_action, CircularQueue.append, hr]

/-- Sample forward-increment action on Nat grids. -/
def exAction : PaintAction Nat := ⟨fun n => n + 1, fun n => n - 1⟩

/-- Sample identity action on Nat grids. -/
def exActionB : PaintAction Nat := ⟨id, id⟩

/-- Tracker whose undo stack is at its full capacity 100000. -/
def fullUndoTracker : UndoTracker Nat :=
  ⟨⟨100000, List.replicate 100000 exActionB⟩, ⟨100000, []⟩⟩

/-- Replay tracker whose record queue is at its full capacity 1000. -/
def fullReplayTracker : ReplayTracker Nat :=
  ⟨⟨1000, List.replicate 1000 (exActionB, false)⟩, ⟨1000, []⟩, false⟩

/-- C4 witness: the concrete full trackers drop the recording silently. -/
theorem trackers_full_silent_drop_witness :
    fullUndoTracker.add_action exAction = fullUndoTracker ∧
    fullReplayTracker.add_action exAction false = fullReplayTracker :=
  trackers_full_silent_drop Nat fullUndoTracker fullReplayTracker exAction false
    (show (List.replicate 100000 exActionB).length = 100000 from List.length_replicate ..)
    (show (List.replicate 1000 (exActionB, false)).length = 1000 from List.length_replicate ..)

/-- C8 (confirmed): on a fresh ReplayTracker, recording A1 forward, A2
forward, A2 as undo, then starting the replay, the first three steps report a
step performed and apply forward(A1), forward(A2), backward(A2) to the grid in
that order, and the fourth step reports that nothing happened and leaves the
grid alone; moreover any step taken while not in playback mode reports
finished immediately with tracker and grid untouched. -/
theorem replay_scenario_spec (G : Type) (A1 A2 : PaintAction G) (g : G) :
    (let r0 := ((((ReplayTracker.initial G).add_action A1 false).add_action A2
        false).add_action A2 true).start_replay
     let p1 := r0.play_next_action g
     let p2 := p1.2.1.play_next_action p1.2.2
     let p3 := p2.2.1.play_next_action p2.2.2
     let p4 := p3.2.1.play_next_action p3.2.2
     p1.1 = false ∧ p1.2.2 = A1.redo_apply g ∧
     p2.1 = false ∧ p2.2.2 = A2.redo_apply (A1.redo_apply g) ∧
     p3.1 = false ∧ p3.2.2 = A2.undo_apply (A2.redo_apply (A1.redo_apply g)) ∧
     p4.1 = true ∧ p4.2.2 = p3.2.2) ∧
    (∀ (s : ReplayTracker G) (g' : G), s.replaying = false →
      s.play_next_action g' = (true, s, g')) := by
  constructor
  · exact ⟨rfl, rfl, rfl, rfl, rfl, rfl, rfl, rfl⟩
  · intro s g' hrep
    simp [ReplayTracker.play_next_action, hrep]

/-- C8 witness: a fresh tracker is not in playback mode and stepping it
reports finished without consuming anything. -/
theorem replay_scenario_spec_witness :
    (ReplayTracker.initial Nat).play_next_action 7 = (true, ReplayTracker.initial Nat, 7) :=
  (replay_scenario_spec Nat exAction exActionB 7).2 (ReplayTracker.initial Nat) 7 rfl

/-- C9 (amended): undo on an empty undo stack returns none and mutates
nothing; otherwise it pops the most recent action, applies its backward
transform to the grid, pushes the popped action onto the redo stack whenever
that stack is below capacity (a full redo stack silently drops the push), and
returns the action. redo on an empty redo stack returns none and mutates
nothing; otherwise it pops an action, applies its forward transform to the
grid, returns it, and leaves the undo stack untouched. -/
theorem undo_redo_spec (G : Type) (s : UndoTracker G) (g : G) :
    (s.undo_array.items = [] → s.undo g = (none, s, g)) ∧
    (∀ a rest, s.undo_array.items = a :: rest →
      s.redo_array.items.length < s.redo_array.capacity →
      s.undo g = (some a,
        ⟨⟨s.undo_array.capacity, rest⟩,
         ⟨s.redo_array.capacity, a :: s.redo_array.items⟩⟩,
        a.undo_apply g)) ∧
    (s.redo_array.items = [] → s.redo g = (none, s, g)) ∧
    (∀ a rest, s.redo_array.items = a :: rest →
      s.redo g = (some a, ⟨s.undo_array, ⟨s.redo_array.capacity, rest⟩⟩, a.redo_apply g)) := by
  refine ⟨?_, ?_, ?_, ?_⟩
  · intro hnil
    simp [UndoTracker.undo, ArrayStack.pop, hnil]
  · intro a rest hcons hlt
    simp [UndoTracker.undo, ArrayStack.pop, hcons, ArrayStack.push, hlt]
  · intro hnil
    simp [UndoTracker.redo, ArrayStack.pop, hnil]
  · intro a rest hcons
    simp [UndoTracker.redo, ArrayStack.pop, hcons]

/-- Tracker holding one recorded action and an empty redo stack. -/
def smallUndoTracker : UndoTracker Nat :=
  ⟨⟨100000, [exAction]⟩, ⟨100000, []⟩⟩

/-- C9 witness: on the one-action tracker, undo pops and returns the action,
applies its backward transform, and moves it to the redo stack; redo on the
empty redo stack does nothing. -/
theorem undo_redo_spec_witness :
    smallUndoTracker.undo 5 = (some exAction,
      ⟨⟨100000, []⟩, ⟨100000, [exAction]⟩⟩, exAction.undo_apply 5) ∧
    smallUndoTracker.redo 5 = (none, smallUndoTracker, 5) := by
  obtain ⟨-, w2, w3, -⟩ := undo_redo_spec Nat smallUndoTracker 5
  exact ⟨w2 exAction [] rfl (by decide), w3 rfl⟩

/-- Tracker whose redo stack is at its full capacity 100000, with one recorded
action left to undo. -/
def fullRedoTracker : UndoTracker Nat :=
  ⟨⟨100000, [exAction]⟩, ⟨100000, List.replicate 100000 exActionB⟩⟩

/-- C9 counterexample: on a state whose redo stack is full, undo pops and
returns the recorded action but the redo stack does not receive it — it keeps
its 100000 old entries and the popped action is not among them — contradicting
the claim that undo always pushes the popped action onto the redo stack. -/
theorem undo_full_redo_cex :
    (fullRedoTracker.undo 0).1 = some exAction ∧
    (fullRedoTracker.undo 0).2.1.redo_array.items.length = 100000 ∧
    exAction ∉ (fullRedoTracker.undo 0).2.1.redo_array.items := by
  have hpush : (⟨100000, List.replicate 100000 exActionB⟩ : ArrayStack (PaintAction Nat)).push
      exAction = ⟨100000, List.replicate 100000 exActionB⟩ :=
    ArrayStack.push_full _ exAction
      (show (List.replicate 100000 exActionB).length = 100000 from List.length_replicate ..)
  have hundo : fullRedoTracker.undo 0 = (some exAction,
      ⟨⟨100000, []⟩, ⟨100000, List.replicate 100000 exActionB⟩⟩,
      exAction.undo_apply 0) := by
    show (some exAction, (⟨⟨100000, []⟩,
        (⟨100000, List.replicate 100000 exActionB⟩ : ArrayStack (PaintAction Nat)).push
          exAction⟩ : UndoTracker Nat), exAction.undo_apply 0) = _
    rw [hpush]
  refine ⟨by rw [hundo], by rw [hundo]; exact List.length_replicate .., ?_⟩
  rw [hundo]
  intro hmem
  have heq := List.eq_of_mem_replicate hmem
  have : exAction.redo_apply 0 = exActionB.redo_apply 0 := by rw [heq]
  exact absurd this (by decide)

/-- C10 (confirmed): undo_array and redo_array are class attributes of
UndoTracker (undo.py lines 8-9), as are the queues and replaying flag of
ReplayTracker (replay.py lines 9-11); UndoTracker methods only mutate those
stack objects in place and never rebind the names, and the class defines no
constructor, so every instance reads and writes one process-wide state,
embedded here as the single UndoTracker state that all calls act on: an action
recorded through one instance is exactly what undo through any other instance
(or a freshly constructed one) pops, applies backward and returns, and the
state after add_action holds a non-empty history for every instance. -/
theorem undo_shared_state_visible (G : Type) (s : UndoTracker G) (a : PaintAction G) (g : G)
    (h : s.undo_array.items.length < s.undo_array.capacity) :
    (s.add_action a).undo g =
      (some a, ⟨⟨s.undo_array.capacity, s.undo_array.items⟩, s.redo_array.push a⟩,
        a.undo_apply g) ∧
    (s.add_action a).undo_array.items ≠ [] := by
  have hpush : s.undo_array.push a = ⟨s.undo_array.capacity, a :: s.undo_array.items⟩ := by
    simp [ArrayStack.push, h]
  constructor
  · simp [UndoTracker.add_action, UndoTracker.undo, hpush, ArrayStack.pop]
  · simp [UndoTracker.add_action, hpush]

/-- C10 witness: on the shared initial state, a recorded action is immediately
popped back by undo. -/
theorem undo_shared_state_visible_witness :
    ((UndoTracker.initial Nat).add_action exAction).undo 3 =
      (some exAction, ⟨⟨100000, []⟩, ⟨100000, [exAction]⟩⟩, exAction.undo_apply 3) ∧
    ((UndoTracker.initial Nat).add_action exAction).undo_array.items ≠ [] :=
  undo_shared_state_visible Nat (UndoTracker.initial Nat) exAction 3 (by decide)
